import Mathlib

/-!
# Arx: lowering of the AST to LLVM IR with debug information

A verification development for `src/codegen/ast-to-llvm-ir.cpp`, the visitor
`ASTToLLVMIRVisitor` that emits LLVM IR together with DWARF debug records.

The C++ object is embedded as an explicit state record `St`; every method is a
function on that record.  Two kinds of code are called by the file without being
part of it:

* the base class `ASTToObjectVisitor` (`getFunction`, the emission of the
  expression and prototype nodes, `Initialize`, `CreateEntryBlockAlloca`);
* the LLVM library (`IRBuilder`, `DIBuilder`, `Module`, `verifyFunction`).

The LLVM objects the file touches are modelled by small records that keep the
fields the calls set.  Objects with identity (functions, basic blocks, allocated
slots, distinct debug nodes) carry a number drawn from the allocation counter
`St.nextId`.  The base-class methods are passed in as the record `Env`, so every
theorem holds for any implementation of them that meets the stated hypotheses.

Undefined behaviour of the C++ is handled as follows.  Dereferencing the null
`expr->Proto` makes `visit_FunctionAST` return `none`.  A read through a pointer
to a function the module does not hold, an insertion by a builder that has no
insertion block, and `pop_back` on an empty scope stack are given the harmless
result stated at their definition; no theorem below depends on a state in which
they occur, except where it says so.
-/

namespace Arx

/-! ## `std::map<std::string, V>` -/

/-- The entries of a `std::map` keyed by strings. -/
abbrev StdMap (V : Type) := List (String × V)

namespace StdMap

/-- The call `m.find(k)`: the value stored under `k`, if any. -/
def find {V : Type} : StdMap V → String → Option V
  | [], _ => none
  | (k', v) :: rest, k => if k' = k then some v else find rest k

/-- The statement `m[k] = v`: insert, or overwrite the value stored under `k`. -/
def assign {V : Type} : StdMap V → String → V → StdMap V
  | [], k, v => [(k, v)]
  | (k', v') :: rest, k, v =>
    if k' = k then (k', v) :: rest else (k', v') :: assign rest k v

end StdMap

/-! ## The AST (from `parser.h`, as far as this file reads it) -/

/-- A prototype: the name, the parameter names and the line of the declaration. -/
structure PrototypeAST where
  Name : String
  Args : List String
  Line : Nat
deriving DecidableEq, Repr

/-- The eight expression node classes. -/
inductive ExprKind where
  | FloatExprAST
  | VariableExprAST
  | UnaryExprAST
  | BinaryExprAST
  | CallExprAST
  | IfExprAST
  | ForExprAST
  | VarExprAST
deriving DecidableEq, Repr

/-- An expression node: its class, its source position (`getLine`, `getCol`),
and its contents.  The contents (operands, names, sub-terms) are read by the
base-class emission only; `Name` is the identifier of a variable node and `Id`
stands for the rest. -/
structure ExprAST where
  kind : ExprKind
  Line : Nat
  Col : Nat
  Name : String
  Id : Nat
deriving DecidableEq, Repr

/-- A function definition.  `Proto` is a `std::unique_ptr`: `none` is the null
pointer left behind by `std::move`. -/
structure FunctionAST where
  Proto : Option PrototypeAST
  Body : ExprAST
deriving DecidableEq, Repr

/-! ## LLVM debug-info nodes -/

/-- The node `DIFile`. -/
structure DIFile where
  Filename : String
  Directory : String
deriving DecidableEq, Repr

/-- The node `DICompileUnit` (a distinct node: `id` is its identity). -/
structure DICompileUnit where
  id : Nat
  Lang : Nat
  File : DIFile
  Producer : String
  isOptimized : Bool
  Flags : String
  RV : Nat
deriving DecidableEq, Repr

/-- The node `DIBasicType`, as returned by `createBasicType` (`id` is the
identity of the object the call returned). -/
structure DIType where
  id : Nat
  Name : String
  SizeInBits : Nat
  Encoding : Nat
deriving DecidableEq, Repr

/-- The node `DISubroutineType`: the result type followed by the argument types. -/
structure DISubroutineType where
  Elts : List DIType
deriving DecidableEq, Repr

/-- The node `DISubprogram` (distinct for a definition). -/
structure DISubprogram where
  id : Nat
  Scope : DIFile
  Name : String
  LinkageName : String
  File : DIFile
  LineNo : Nat
  Ty : DISubroutineType
  ScopeLine : Nat
  Flags : Nat
  SPFlags : Nat
deriving DecidableEq, Repr

/-- A debug scope (`llvm::DIScope*`): a compile unit or a subprogram. -/
inductive DIScope where
  | CompileUnit (cu : DICompileUnit)
  | Subprogram (sp : DISubprogram)
deriving DecidableEq, Repr

/-- A debug location node `DILocation`: line, column and scope as stored. -/
structure DILocation where
  Line : Nat
  Col : Nat
  Scope : DIScope
deriving DecidableEq, Repr

/-- The call `DILocation::get(ctx, Line, Col, Scope)`.  LLVM keeps 16 bits of
column and stores column 0 for a column of 65536 or more. -/
def DILocation.get (Line Col : Nat) (Scope : DIScope) : DILocation :=
  ⟨Line, if Col < 2 ^ 16 then Col else 0, Scope⟩

/-- A value (`llvm::Value*`): an incoming argument of a function, a slot made by
an `alloca`, or any other value produced by the emission of an expression. -/
inductive Value where
  | Argument (F : Nat) (ArgNo : Nat)
  | Alloca (id : Nat)
  | Other (id : Nat)
deriving DecidableEq, Repr

/-- The node `DILocalVariable` made by `createParameterVariable`; `ArgNo` is
the argument number as stored, a 16-bit field. -/
structure DILocalVariable where
  Scope : DISubprogram
  Name : String
  ArgNo : Nat
  File : DIFile
  LineNo : Nat
  Ty : DIType
  AlwaysPreserve : Bool
deriving DecidableEq, Repr

/-! ## The LLVM module -/

/-- The operations this file emits, and `Other` for what the base class emits. -/
inductive Opcode where
  | Alloca (slot : Nat) (Name : String)
  | Store (Val : Value) (Ptr : Value)
  | Ret (Val : Value)
  | DbgDeclare (Storage : Value) (Var : DILocalVariable) (DL : DILocation)
  | Other (id : Nat)
deriving DecidableEq, Repr

/-- An instruction: the block that holds it, the operation, and the debug
location the builder attached to it (`none` is the empty `DebugLoc()`). -/
structure Instruction where
  Parent : Nat
  Op : Opcode
  Loc : Option DILocation
deriving DecidableEq, Repr

/-- A basic block: its identity, its label and the function that holds it. -/
structure BasicBlock where
  id : Nat
  Name : String
  Parent : Nat
deriving DecidableEq, Repr

/-- A function object (`llvm::Function`): identity, name, the names of its
arguments in order, and the subprogram attached by `setSubprogram`. -/
structure Function where
  id : Nat
  Name : String
  Args : List String
  Subprogram : Option DISubprogram
deriving DecidableEq, Repr

/-- A module flag `addModuleFlag(Behavior, Key, Val)`. -/
structure ModuleFlag where
  Behavior : Nat
  Key : String
  Val : Nat
deriving DecidableEq, Repr

/-- The module.  The ownership tree of LLVM (module, functions, blocks,
instructions) is kept as three lists: the functions, the blocks with their
parent function, and the instructions with their parent block, each in program
order.  `CompileUnits` is the named metadata `llvm.dbg.cu`. -/
structure Module where
  Functions : List Function
  Blocks : List BasicBlock
  Insts : List Instruction
  Flags : List ModuleFlag
  CompileUnits : List DICompileUnit
  DataLayout : String
deriving DecidableEq, Repr

/-- The builder `IRBuilder`: the block instructions are appended to, and the
current debug location. -/
structure IRBuilder where
  InsertBlock : Option Nat
  CurDbgLoc : Option DILocation
deriving DecidableEq, Repr

/-- The builder `DIBuilder`: the compile unit it made (`CUNode`), the
subprograms it made and the variables it preserves. -/
structure DIBuilder where
  CUNode : Option DICompileUnit
  AllSubprograms : List DISubprogram
  PreservedVariables : List DILocalVariable
deriving DecidableEq, Repr

/-- The state of an `ASTToLLVMIRVisitor` with the module it owns. -/
structure St where
  function_protos : StdMap PrototypeAST
  named_values : StdMap Value
  result_val : Option Value
  result_func : Option Nat
  module : Module
  builder : IRBuilder
  DBuilder : DIBuilder
  TheCU : DICompileUnit
  DblTy : Option DIType
  LexicalBlocks : List DIScope
  nextId : Nat
deriving DecidableEq, Repr

/-- The code this file calls without defining it: the methods of the base class
`ASTToObjectVisitor`, and from LLVM the verifier, the JIT constructor and the
host triple. -/
structure Env where
  getFunction : String → St → St
  visit_FloatExprAST : ExprAST → St → St
  visit_VariableExprAST : ExprAST → St → St
  visit_UnaryExprAST : ExprAST → St → St
  visit_BinaryExprAST : ExprAST → St → St
  visit_CallExprAST : ExprAST → St → St
  visit_IfExprAST : ExprAST → St → St
  visit_ForExprAST : ExprAST → St → St
  visit_VarExprAST : ExprAST → St → St
  visit_PrototypeAST : PrototypeAST → St → St
  Initialize : St → St
  verifyFunction : Nat → St → Bool
  ArxJIT_Create : Option String
  isOSDarwin : Bool

/-! ## Constants of the LLVM headers -/

/-- The constant `llvm::dwarf::DW_LANG_C`. -/
def DW_LANG_C : Nat := 2
/-- The constant `llvm::dwarf::DW_ATE_float`. -/
def DW_ATE_float : Nat := 4
/-- The constant `llvm::DINode::FlagPrototyped`. -/
def FlagPrototyped : Nat := 256
/-- The constant `llvm::DISubprogram::SPFlagDefinition`. -/
def SPFlagDefinition : Nat := 8
/-- The constant `llvm::DEBUG_METADATA_VERSION`. -/
def DEBUG_METADATA_VERSION : Nat := 3
/-- The constant `llvm::Module::Warning`. -/
def Module_Warning : Nat := 2

/-! ## Debug types (`CreateFunctionType`, `getDoubleTy`) -/

/-- The method `ASTToLLVMIRVisitor::getDoubleTy`: the cached type when there is
one, else a new basic type `double`, 64 bits, float encoding, which is cached. -/
def getDoubleTy (s : St) : DIType × St :=
  match s.DblTy with
  | some t => (t, s)
  | none =>
    let t : DIType := ⟨s.nextId, "double", 64, DW_ATE_float⟩
    (t, { s with DblTy := some t, nextId := s.nextId + 1 })

/-- The loop of `CreateFunctionType`: `n` more passes, each pushing `DblTy`. -/
def CreateFunctionType.loop (DblTy : DIType) : Nat → List DIType → List DIType
  | 0, EltTys => EltTys
  | n + 1, EltTys => CreateFunctionType.loop DblTy n (EltTys ++ [DblTy])

/-- The method `ASTToLLVMIRVisitor::CreateFunctionType(NumArgs)`. -/
def CreateFunctionType (NumArgs : Nat) (s : St) : DISubroutineType × St :=
  let EltTys : List DIType := []
  let r := getDoubleTy s
  let DblTy := r.1
  let EltTys := EltTys ++ [DblTy]
  let EltTys := CreateFunctionType.loop DblTy NumArgs EltTys
  (⟨EltTys⟩, r.2)

/-! ## Debug locations (`emitLocation`) and the expression visitors -/

/-- The call `builder->SetCurrentDebugLocation(L)`. -/
def SetCurrentDebugLocation (L : Option DILocation) (s : St) : St :=
  { s with builder := { s.builder with CurDbgLoc := L } }

/-- The method `ASTToLLVMIRVisitor::emitLocation(AST)`; `none` is a null node. -/
def emitLocation (AST : Option ExprAST) (s : St) : St :=
  match AST with
  | none => SetCurrentDebugLocation none s
  | some a =>
    let Scope : DIScope :=
      match s.LexicalBlocks.getLast? with
      | none => DIScope.CompileUnit s.TheCU
      | some top => top
    SetCurrentDebugLocation (some (DILocation.get a.Line a.Col Scope)) s

/-- The method `visit(FloatExprAST*)`. -/
def visit_FloatExprAST (v : Env) (expr : ExprAST) (s : St) : St :=
  v.visit_FloatExprAST expr (emitLocation (some expr) s)

/-- The method `visit(VariableExprAST*)`. -/
def visit_VariableExprAST (v : Env) (expr : ExprAST) (s : St) : St :=
  v.visit_VariableExprAST expr (emitLocation (some expr) s)

/-- The method `visit(UnaryExprAST*)`. -/
def visit_UnaryExprAST (v : Env) (expr : ExprAST) (s : St) : St :=
  v.visit_UnaryExprAST expr (emitLocation (some expr) s)

/-- The method `visit(BinaryExprAST*)`. -/
def visit_BinaryExprAST (v : Env) (expr : ExprAST) (s : St) : St :=
  v.visit_BinaryExprAST expr (emitLocation (some expr) s)

/-- The method `visit(CallExprAST*)`. -/
def visit_CallExprAST (v : Env) (expr : ExprAST) (s : St) : St :=
  v.visit_CallExprAST expr (emitLocation (some expr) s)

/-- The method `visit(IfExprAST*)`. -/
def visit_IfExprAST (v : Env) (expr : ExprAST) (s : St) : St :=
  v.visit_IfExprAST expr (emitLocation (some expr) s)

/-- The method `visit(ForExprAST*)`. -/
def visit_ForExprAST (v : Env) (expr : ExprAST) (s : St) : St :=
  v.visit_ForExprAST expr (emitLocation (some expr) s)

/-- The method `visit(VarExprAST*)`. -/
def visit_VarExprAST (v : Env) (expr : ExprAST) (s : St) : St :=
  v.visit_VarExprAST expr (emitLocation (some expr) s)

/-- The method `visit(PrototypeAST*)`. -/
def visit_PrototypeAST (v : Env) (expr : PrototypeAST) (s : St) : St :=
  v.visit_PrototypeAST expr s

/-- The call `node->accept(this)` on an expression node: the virtual dispatch to
the `visit` overload of the node's class. -/
def accept (v : Env) (expr : ExprAST) (s : St) : St :=
  match expr.kind with
  | .FloatExprAST => visit_FloatExprAST v expr s
  | .VariableExprAST => visit_VariableExprAST v expr s
  | .UnaryExprAST => visit_UnaryExprAST v expr s
  | .BinaryExprAST => visit_BinaryExprAST v expr s
  | .CallExprAST => visit_CallExprAST v expr s
  | .IfExprAST => visit_IfExprAST v expr s
  | .ForExprAST => visit_ForExprAST v expr s
  | .VarExprAST => visit_VarExprAST v expr s

/-! ## Primitives of the LLVM API used by `visit(FunctionAST*)` -/

/-- The function object with identity `F`, when the module holds it. -/
def Module.findFunction (m : Module) (F : Nat) : Option Function :=
  m.Functions.find? (fun f => f.id == F)

/-- The call `module->getFunction(Name)`: the function of that name, if any. -/
def Module.getFunction (m : Module) (Name : String) : Option Function :=
  m.Functions.find? (fun f => f.Name == Name)

/-- The range `F->args()`, as the list of the argument names (`Arg.getName()`).
A pointer that is not a function of the module has no arguments to read.  In
LLVM the non-empty argument names of one function are pairwise distinct
(`setName` renames a clash, see `ValueSymbolTable.setNames`); the theorems that
depend on it state it as `Module.distinctArgNames`. -/
def Module.args (m : Module) (F : Nat) : List String :=
  match m.findFunction F with
  | some f => f.Args
  | none => []

/-- The call `F->getEntryBlock()`: the first block of the function. -/
def Module.getEntryBlock (m : Module) (F : Nat) : Option Nat :=
  (m.Blocks.find? (fun b => b.Parent == F)).map (fun b => b.id)

/-- The call `BasicBlock::Create(ctx, Name, F)`: a new block, appended to the
blocks of `F`.  The new block is the one numbered `s.nextId`. -/
def BasicBlock_Create (Name : String) (F : Nat) (s : St) : St :=
  { s with
    module := { s.module with Blocks := s.module.Blocks ++ [⟨s.nextId, Name, F⟩] }
    nextId := s.nextId + 1 }

/-- The call `builder->SetInsertPoint(BB)`. -/
def SetInsertPoint (BB : Nat) (s : St) : St :=
  { s with builder := { s.builder with InsertBlock := some BB } }

/-- The builder inserting an instruction: appended to the insertion block with
the current debug location; a builder without insertion block inserts nothing. -/
def IRBuilder_Insert (op : Opcode) (s : St) : St :=
  match s.builder.InsertBlock with
  | some BB =>
    { s with module :=
        { s.module with Insts := s.module.Insts ++ [⟨BB, op, s.builder.CurDbgLoc⟩] } }
  | none => s

/-- The call `DBuilder->createFunction(...)`: a new distinct subprogram, numbered
`s.nextId`, recorded by the builder. -/
def createFunction (Scope : DIFile) (Name LinkageName : String) (File : DIFile)
    (LineNo : Nat) (Ty : DISubroutineType) (ScopeLine Flags SPFlags : Nat) (s : St) :
    DISubprogram × St :=
  let SP : DISubprogram :=
    ⟨s.nextId, Scope, Name, LinkageName, File, LineNo, Ty, ScopeLine, Flags, SPFlags⟩
  (SP, { s with
    DBuilder := { s.DBuilder with AllSubprograms := s.DBuilder.AllSubprograms ++ [SP] }
    nextId := s.nextId + 1 })

/-- The call `F->setSubprogram(SP)`. -/
def setSubprogram (F : Nat) (SP : DISubprogram) (s : St) : St :=
  { s with module := { s.module with
      Functions := s.module.Functions.map
        (fun f => if f.id = F then { f with Subprogram := some SP } else f) } }

/-- Modelled from the spec: `CreateEntryBlockAlloca(F, VarName)` of the base
class is not in this file; the spec has it "allocate one addressable storage
slot sized for the value type".  The slot is a new `alloca`, numbered
`s.nextId`, placed at the head of the entry block of `F`. -/
def CreateEntryBlockAlloca (F : Nat) (VarName : String) (s : St) : Value × St :=
  (Value.Alloca s.nextId,
    { s with
      module := { s.module with Insts :=
        match s.module.getEntryBlock F with
        | some EB => ⟨EB, Opcode.Alloca s.nextId VarName, none⟩ :: s.module.Insts
        | none => s.module.Insts }
      nextId := s.nextId + 1 })

/-- The call `DBuilder->createParameterVariable(...)` with `AlwaysPreserve`:
the variable is recorded by the builder.  LLVM stores the argument number in 16
bits, so the node holds `ArgNo` modulo 65536. -/
def createParameterVariable (Scope : DISubprogram) (Name : String) (ArgNo : Nat)
    (File : DIFile) (LineNo : Nat) (Ty : DIType) (s : St) : DILocalVariable × St :=
  let D : DILocalVariable := ⟨Scope, Name, ArgNo % 2 ^ 16, File, LineNo, Ty, true⟩
  (D, { s with DBuilder :=
    { s.DBuilder with PreservedVariables := s.DBuilder.PreservedVariables ++ [D] } })

/-- The call `DBuilder->insertDeclare(Storage, D, createExpression(), DL, BB)`:
a `dbg.declare` appended to the block `BB`, carrying `DL`.  The expression is
always the empty one and is not kept. -/
def insertDeclare (Storage : Value) (D : DILocalVariable) (DL : DILocation)
    (BB : Option Nat) (s : St) : St :=
  match BB with
  | some b =>
    { s with module :=
        { s.module with Insts := s.module.Insts ++ [⟨b, Opcode.DbgDeclare Storage D DL, some DL⟩] } }
  | none => s

/-- The call `F->eraseFromParent()`: the function leaves the module with its
blocks and their instructions. -/
def eraseFromParent (F : Nat) (s : St) : St :=
  { s with module := { s.module with
      Functions := s.module.Functions.filter (fun f => f.id != F)
      Blocks := s.module.Blocks.filter (fun b => b.Parent != F)
      Insts := s.module.Insts.filter (fun i =>
        !(s.module.Blocks.any (fun b => b.id == i.Parent && b.Parent == F))) } }

/-! ## `visit(FunctionAST*)` -/

/-- Lines 187-189: the entry block is created and the builder placed in it. -/
def FunctionAST.entry (TheFunction : Nat) (s : St) : St :=
  let BB := s.nextId
  let s := BasicBlock_Create "entry" TheFunction s
  SetInsertPoint BB s

/-- The file node `Unit` of lines 193-194. -/
def FunctionAST.Unit (s : St) : DIFile :=
  ⟨s.TheCU.File.Filename, s.TheCU.File.Directory⟩

/-- Lines 193-207: the subprogram `SP` of the function, with the state after
its creation.  `arg_size()` is narrowed to `unsigned`. -/
def FunctionAST.subprogram (P : PrototypeAST) (TheFunction : Nat) (s : St) :
    DISubprogram × St :=
  let Unit := FunctionAST.Unit s
  let FContext := Unit
  let LineNo := P.Line
  let ScopeLine := LineNo
  let ty := CreateFunctionType ((s.module.args TheFunction).length % 2 ^ 32) s
  createFunction FContext P.Name "" Unit LineNo ty.1 ScopeLine FlagPrototyped
    SPFlagDefinition ty.2

/-- Lines 193-216: the subprogram is attached to the function and pushed on the
scope stack, and the location is unset for the prologue. -/
def FunctionAST.scope (P : PrototypeAST) (TheFunction : Nat) (s : St) : St :=
  let r := FunctionAST.subprogram P TheFunction s
  let SP := r.1
  let s := setSubprogram TheFunction SP r.2
  let s := { s with LexicalBlocks := s.LexicalBlocks ++ [DIScope.Subprogram SP] }
  emitLocation none s

/-- One pass of the loop of lines 224-248, for the argument `ArgName` at
position `pos` of `TheFunction`, with `ArgIdx` the counter before the pass. -/
def FunctionAST.bindArg (TheFunction : Nat) (SP : DISubprogram) (Unit : DIFile)
    (LineNo : Nat) (pos : Nat) (ArgName : String) (ArgIdx : Nat) (s : St) : St :=
  let a := CreateEntryBlockAlloca TheFunction ArgName s
  let Alloca := a.1
  let ArgIdx := (ArgIdx + 1) % 2 ^ 32
  let t := getDoubleTy a.2
  let d := createParameterVariable SP ArgName ArgIdx Unit LineNo t.1 t.2
  let D := d.1
  let s := d.2
  let s := insertDeclare Alloca D (DILocation.get LineNo 0 (DIScope.Subprogram SP))
    s.builder.InsertBlock s
  let s := IRBuilder_Insert (Opcode.Store (Value.Argument TheFunction pos) Alloca) s
  { s with named_values := s.named_values.assign ArgName Alloca }

/-- The loop of lines 223-248 over the arguments still to visit; `pos` is the
position of the first of them and `ArgIdx` the counter (an `unsigned`). -/
def FunctionAST.bindArgs (TheFunction : Nat) (SP : DISubprogram) (Unit : DIFile)
    (LineNo : Nat) : List String → Nat → Nat → St → St
  | [], _, _, s => s
  | ArgName :: rest, pos, ArgIdx, s =>
    FunctionAST.bindArgs TheFunction SP Unit LineNo rest (pos + 1) ((ArgIdx + 1) % 2 ^ 32)
      (FunctionAST.bindArg TheFunction SP Unit LineNo pos ArgName ArgIdx s)

/-- Lines 185-221: the state in which the loop over the arguments starts. -/
def FunctionAST.paramsState (P : PrototypeAST) (TheFunction : Nat) (s : St) : St :=
  { FunctionAST.scope P TheFunction (FunctionAST.entry TheFunction s) with named_values := [] }

/-- Lines 185-250: everything between the lookup and the dispatch of the body.
The result is the state in which `expr->Body->accept(this)` is called. -/
def FunctionAST.prologue (P : PrototypeAST) (Body : ExprAST) (TheFunction : Nat)
    (s : St) : St :=
  let Unit := FunctionAST.Unit (FunctionAST.entry TheFunction s)
  let LineNo := P.Line
  let SP := (FunctionAST.subprogram P TheFunction (FunctionAST.entry TheFunction s)).1
  let s := FunctionAST.paramsState P TheFunction s
  let s := FunctionAST.bindArgs TheFunction SP Unit LineNo (s.module.args TheFunction) 0 0 s
  emitLocation (some Body) s

/-- Lines 253-277: what follows the dispatch of the body.  The verdict of
`verifyFunction` (true when the function is broken) is not read.  The call
`LexicalBlocks.pop_back()` is `dropLast`, which leaves an empty stack empty. -/
def FunctionAST.finish (v : Env) (TheFunction : Nat) (s : St) : St :=
  match s.result_val with
  | some RetVal =>
    let s := IRBuilder_Insert (Opcode.Ret RetVal) s
    let s := { s with LexicalBlocks := s.LexicalBlocks.dropLast }
    let _broken := v.verifyFunction TheFunction s
    { s with result_func := some TheFunction }
  | none =>
    let s := eraseFromParent TheFunction s
    let s := { s with result_func := none }
    { s with LexicalBlocks := s.LexicalBlocks.dropLast }

/-- Lines 175-177: the prototype is moved into `function_protos` under its name
and the function object is looked up by that name. -/
def FunctionAST.lookup (v : Env) (P : PrototypeAST) (s : St) : St :=
  let s := { s with function_protos := s.function_protos.assign P.Name P }
  v.getFunction P.Name s

/-- The state in which `visit(FunctionAST*)` reads `result_val`: the body has
been dispatched from the prologue state of the looked-up function. -/
def FunctionAST.body (v : Env) (P : PrototypeAST) (Body : ExprAST) (TheFunction : Nat)
    (s : St) : St :=
  accept v Body (FunctionAST.prologue P Body TheFunction (FunctionAST.lookup v P s))

/-- The method `visit(FunctionAST*)`.  The result is the node after the call
(its prototype moved out) and the new state; `none` is the dereference of a
null `expr->Proto`. -/
def visit_FunctionAST (v : Env) (expr : FunctionAST) (s : St) : Option (FunctionAST × St) :=
  match expr.Proto with
  | none => none
  | some P =>
    let node : FunctionAST := { expr with Proto := none }
    let s := FunctionAST.lookup v P s
    match s.result_func with
    | none => some (node, { s with result_func := none })
    | some TheFunction =>
      let s := FunctionAST.prologue P expr.Body TheFunction s
      let s := accept v expr.Body s
      some (node, FunctionAST.finish v TheFunction s)

/-- Modelled from the spec: the driver loop `MainLoop` is not in this file; the
spec has the dispatcher walk the top-level function definitions in order.  Each
definition is visited in the state the previous one left. -/
def compileDefinitions (v : Env) : List FunctionAST → St → Option St
  | [], s => some s
  | d :: rest, s =>
    match visit_FunctionAST v d s with
    | none => none
    | some r => compileDefinitions v rest r.2

/-! ## Bootstrap (`Initialize`, `compile_llvm_ir`) -/

/-- A new `DIBuilder` bound to the module: it has made nothing yet. -/
def DIBuilder.new : DIBuilder := ⟨none, [], []⟩

/-- The call `DBuilder->createCompileUnit(...)`: a new distinct compile unit,
numbered `s.nextId`, kept by the builder and added to `llvm.dbg.cu`. -/
def createCompileUnit (Lang : Nat) (File : DIFile) (Producer : String) (isOptimized : Bool)
    (Flags : String) (RV : Nat) (s : St) : DICompileUnit × St :=
  let CU : DICompileUnit := ⟨s.nextId, Lang, File, Producer, isOptimized, Flags, RV⟩
  (CU, { s with
    DBuilder := { s.DBuilder with CUNode := some CU }
    module := { s.module with CompileUnits := s.module.CompileUnits ++ [CU] }
    nextId := s.nextId + 1 })

/-- The call `module->addModuleFlag(Behavior, Key, Val)`. -/
def addModuleFlag (Behavior : Nat) (Key : String) (Val : Nat) (s : St) : St :=
  { s with module := { s.module with Flags := s.module.Flags ++ [⟨Behavior, Key, Val⟩] } }

/-- The method `ASTToLLVMIRVisitor::Initialize`; `none` is the exit taken by
`ExitOnErr` when the JIT cannot be created. -/
def Initialize (v : Env) (s : St) : Option St :=
  let s := v.Initialize s
  match v.ArxJIT_Create with
  | none => none
  | some layout =>
    let s := { s with module := { s.module with DataLayout := layout } }
    some { s with DBuilder := DIBuilder.new }

/-- Lines 299-347 of `compile_llvm_ir`: from the new visitor `codegen` to the
state in which `MainLoop` is called. -/
def compile_llvm_ir.bootstrap (v : Env) (codegen : St) : Option St :=
  match Initialize v codegen with
  | none => none
  | some s =>
    let r := createCompileUnit DW_LANG_C ⟨"fib.ks", "."⟩ "Arx Compiler" false "" 0 s
    let s := { r.2 with TheCU := r.1 }
    let s := addModuleFlag Module_Warning "Debug Info Version" DEBUG_METADATA_VERSION s
    let s := if v.isOSDarwin then addModuleFlag Module_Warning "Dwarf Version" 2 s else s
    let s := { s with DBuilder := DIBuilder.new }
    let r := createCompileUnit DW_LANG_C ⟨"fib.arxks", "."⟩ "Arx Compiler" false "" 0 s
    some { r.2 with TheCU := r.1 }

/-! ## A base class to run the visitor on concrete inputs -/

/-- The naming of a clashing value by LLVM (`ValueSymbolTable::makeUniqueName`):
the counter `LastUnique` of the symbol table is stepped and appended to the
name until the result is not in `taken`.  The result is the new name and the
new counter.  One of `taken.length + 1` consecutive suffixes is free. -/
def ValueSymbolTable.makeUniqueName (Name : String) (taken : List String)
    (LastUnique : Nat) : String × Nat :=
  let k := ((List.range (taken.length + 1)).find?
    (fun k => !(taken.contains (Name ++ Nat.repr (LastUnique + 1 + k))))).getD 0
  (Name ++ Nat.repr (LastUnique + 1 + k), LastUnique + 1 + k)

/-- The calls `Arg.setName(Name)` on the arguments of a new function, in order:
an empty name leaves the argument unnamed, a name already in the symbol table
(`taken`) is replaced by `makeUniqueName`, any other name is kept. -/
def ValueSymbolTable.setNames : List String → List String → Nat → List String
  | [], _, _ => []
  | Name :: rest, taken, LastUnique =>
    if Name = "" then "" :: ValueSymbolTable.setNames rest taken LastUnique
    else if Name ∈ taken then
      let r := ValueSymbolTable.makeUniqueName Name taken LastUnique
      r.1 :: ValueSymbolTable.setNames rest (r.1 :: taken) r.2
    else Name :: ValueSymbolTable.setNames rest (Name :: taken) LastUnique

/-- Modelled from the spec: the prototype visitor of the base class is not in
this file; the spec has the function object "lazily materialized from the
registry".  A new function object with the name of the prototype and one
argument per parameter, named after it by `setName`, joins the module and
becomes the function result. -/
def ASTToObjectVisitor.visit_PrototypeAST (expr : PrototypeAST) (s : St) : St :=
  { s with
    module := { s.module with
      Functions := s.module.Functions
        ++ [⟨s.nextId, expr.Name, ValueSymbolTable.setNames expr.Args [] 0, none⟩] }
    result_func := some s.nextId
    nextId := s.nextId + 1 }

/-- Modelled from the spec: `getFunction` of the base class is not in this
file; the spec has it "look up (or lazily materialize from the registry) the
backend function object for that name", the current module first, then the
Function Registry, failing if the name is absent from both. -/
def ASTToObjectVisitor.getFunction (Name : String) (s : St) : St :=
  match s.module.getFunction Name with
  | some F => { s with result_func := some F.id }
  | none =>
    match s.function_protos.find Name with
    | some P => ASTToObjectVisitor.visit_PrototypeAST P s
    | none => { s with result_func := none }

/-- Modelled from the spec: the emission of a numeric literal by the base class
is not in this file; it yields a value. -/
def ASTToObjectVisitor.visit_FloatExprAST (expr : ExprAST) (s : St) : St :=
  { s with result_val := some (Value.Other expr.Id) }

/-- Modelled from the spec: the emission of a variable reference by the base
class is not in this file; the spec has it look the name up in the Symbol Table
and fail (null value) when the name is absent. -/
def ASTToObjectVisitor.visit_VariableExprAST (expr : ExprAST) (s : St) : St :=
  { s with result_val := s.named_values.find expr.Name }

/-- Modelled from the spec: the emission of the other expression nodes by the
base class is not in this file; the sample lowers none of them and reports what
the spec has every unresolved node report, a null value. -/
def ASTToObjectVisitor.unresolved (_expr : ExprAST) (s : St) : St :=
  { s with result_val := none }

/-- Modelled from the spec: `ASTToObjectVisitor::Initialize` is not in this
file; the spec has the bootstrap create the empty module. -/
def ASTToObjectVisitor.Initialize (s : St) : St :=
  { s with
    module := ⟨[], [], [], [], [], ""⟩
    builder := ⟨none, none⟩ }

/-- A sample of the code outside this file, assembled from the definitions
modelled from the spec; `broken` is the verdict its verifier gives. -/
def Env.sample (broken : Bool) : Env where
  getFunction := ASTToObjectVisitor.getFunction
  visit_FloatExprAST := ASTToObjectVisitor.visit_FloatExprAST
  visit_VariableExprAST := ASTToObjectVisitor.visit_VariableExprAST
  visit_UnaryExprAST := ASTToObjectVisitor.unresolved
  visit_BinaryExprAST := ASTToObjectVisitor.unresolved
  visit_CallExprAST := ASTToObjectVisitor.unresolved
  visit_IfExprAST := ASTToObjectVisitor.unresolved
  visit_ForExprAST := ASTToObjectVisitor.unresolved
  visit_VarExprAST := ASTToObjectVisitor.unresolved
  visit_PrototypeAST := ASTToObjectVisitor.visit_PrototypeAST
  Initialize := ASTToObjectVisitor.Initialize
  verifyFunction := fun _ _ => broken
  ArxJIT_Create := some "e-m:e"
  isOSDarwin := false

/-- A visitor just constructed: nothing registered, an empty module, and a
`TheCU` that no compile unit has been assigned to yet. -/
def St.fresh : St where
  function_protos := []
  named_values := []
  result_val := none
  result_func := none
  module := ⟨[], [], [], [], [], ""⟩
  builder := ⟨none, none⟩
  DBuilder := DIBuilder.new
  TheCU := ⟨0, DW_LANG_C, ⟨"", ""⟩, "", false, "", 0⟩
  DblTy := none
  LexicalBlocks := []
  nextId := 1

/-! ## Concrete inputs -/

/-- The literal `1` at line 3, column 5. -/
def Sample.literal : ExprAST := ⟨ExprKind.FloatExprAST, 3, 5, "", 1⟩

/-- A reference to the variable `Name` at line 3, column 5. -/
def Sample.variable (Name : String) : ExprAST := ⟨ExprKind.VariableExprAST, 3, 5, Name, 0⟩

/-- The state in which `MainLoop` starts, with the sample base class. -/
def Sample.booted : St :=
  (compile_llvm_ir.bootstrap (Env.sample false) St.fresh).getD St.fresh

/-- The state after `function f(x, y): 1` has been compiled from `booted`. -/
def Sample.withF : St :=
  ((visit_FunctionAST (Env.sample false)
    ⟨some ⟨"f", ["x", "y"], 1⟩, Sample.literal⟩ Sample.booted).map Prod.snd).getD St.fresh

theorem emitLocation_LexicalBlocks (a : Option ExprAST) (s : St) :
    (emitLocation a s).LexicalBlocks = s.LexicalBlocks := by
  cases a <;> rfl

/-- C10, counterexample: a literal at line 3, column 70000 is visited with an
empty scope stack.  The location in which the base class emits it has column 0,
not 70000. -/
theorem visit_expression_column_overflow :
    ((accept (Env.sample false) ⟨ExprKind.FloatExprAST, 3, 70000, "", 1⟩
        Sample.booted).builder.CurDbgLoc).map (fun l => (l.Line, l.Col)) = some (3, 0)
    ∧ ((emitLocation (some ⟨ExprKind.FloatExprAST, 3, 70000, "", 1⟩)
        Sample.booted).builder.CurDbgLoc).map (fun l => (l.Line, l.Col)) = some (3, 0) := by
  decide

/-- C10, amended: each of the eight expression visitors hands the node to the
base-class emission in the state `emitLocation` produced; there the current
debug location has the line of the node, the scope on top of the scope stack
(the compile unit when the stack is empty) and the column of the node when that
column is below 65536, column 0 otherwise; a null node sets the empty location;
`emitLocation` changes nothing but the current location (so the scope stack is
as before); and the prototype visitor calls the base class in the state it was
given. -/
theorem visit_expression_sets_location (v : Env) (expr : ExprAST) (s : St)
    (below : List DIScope) (top : DIScope) (p : PrototypeAST) :
    (visit_FloatExprAST v expr s = v.visit_FloatExprAST expr (emitLocation (some expr) s)
      ∧ visit_VariableExprAST v expr s
          = v.visit_VariableExprAST expr (emitLocation (some expr) s)
      ∧ visit_UnaryExprAST v expr s = v.visit_UnaryExprAST expr (emitLocation (some expr) s)
      ∧ visit_BinaryExprAST v expr s = v.visit_BinaryExprAST expr (emitLocation (some expr) s)
      ∧ visit_CallExprAST v expr s = v.visit_CallExprAST expr (emitLocation (some expr) s)
      ∧ visit_IfExprAST v expr s = v.visit_IfExprAST expr (emitLocation (some expr) s)
      ∧ visit_ForExprAST v expr s = v.visit_ForExprAST expr (emitLocation (some expr) s)
      ∧ visit_VarExprAST v expr s = v.visit_VarExprAST expr (emitLocation (some expr) s))
    ∧ (emitLocation (some expr) { s with LexicalBlocks := below ++ [top] }).builder.CurDbgLoc
        = some ⟨expr.Line, if expr.Col < 2 ^ 16 then expr.Col else 0, top⟩
    ∧ (emitLocation (some expr) { s with LexicalBlocks := [] }).builder.CurDbgLoc
        = some ⟨expr.Line, if expr.Col < 2 ^ 16 then expr.Col else 0,
            DIScope.CompileUnit s.TheCU⟩
    ∧ (expr.Col < 2 ^ 16 →
        (emitLocation (some expr) { s with LexicalBlocks := below ++ [top] }).builder.CurDbgLoc
          = some ⟨expr.Line, expr.Col, top⟩
        ∧ (emitLocation (some expr) { s with LexicalBlocks := [] }).builder.CurDbgLoc
          = some ⟨expr.Line, expr.Col, DIScope.CompileUnit s.TheCU⟩)
    ∧ (emitLocation none s).builder.CurDbgLoc = none
    ∧ (∀ a : Option ExprAST,
        emitLocation a s
          = { s with builder :=
                { s.builder with CurDbgLoc := (emitLocation a s).builder.CurDbgLoc } }
        ∧ (emitLocation a s).LexicalBlocks = s.LexicalBlocks)
    ∧ visit_PrototypeAST v p s = v.visit_PrototypeAST p s := by
  have htop : (emitLocation (some expr)
      { s with LexicalBlocks := below ++ [top] }).builder.CurDbgLoc
      = some ⟨expr.Line, if expr.Col < 2 ^ 16 then expr.Col else 0, top⟩ := by
    simp [emitLocation, SetCurrentDebugLocation, DILocation.get]
  have hcu : (emitLocation (some expr) { s with LexicalBlocks := [] }).builder.CurDbgLoc
      = some ⟨expr.Line, if expr.Col < 2 ^ 16 then expr.Col else 0,
          DIScope.CompileUnit s.TheCU⟩ := rfl
  refine ⟨⟨rfl, rfl, rfl, rfl, rfl, rfl, rfl, rfl⟩, htop, hcu, ?_, rfl, ?_, rfl⟩
  · intro hcol
    rw [htop, hcu, if_pos hcol]
    exact ⟨rfl, rfl⟩
  · intro a
    cases a <;> exact ⟨rfl, rfl⟩

/-- Witness of C10 as amended: a variable reference at line 3, column 5, visited
in the state in which `MainLoop` starts, under the scope on top of the stack
and under the empty stack. -/
theorem visit_expression_sets_location_witness :
    (emitLocation (some (Sample.variable "a"))
        { Sample.booted with
          LexicalBlocks := [] ++ [DIScope.CompileUnit Sample.booted.TheCU] }).builder.CurDbgLoc
      = some ⟨(Sample.variable "a").Line, (Sample.variable "a").Col,
          DIScope.CompileUnit Sample.booted.TheCU⟩
    ∧ (emitLocation (some (Sample.variable "a"))
        { Sample.booted with LexicalBlocks := [] }).builder.CurDbgLoc
      = some ⟨(Sample.variable "a").Line, (Sample.variable "a").Col,
          DIScope.CompileUnit Sample.booted.TheCU⟩ :=
  (visit_expression_sets_location (Env.sample false) (Sample.variable "a") Sample.booted []
    (DIScope.CompileUnit Sample.booted.TheCU) ⟨"f", [], 1⟩).2.2.2.1 (by decide)

/-! ### Debug types -/

theorem CreateFunctionType.loop_eq (d : DIType) (n : Nat) (l : List DIType) :
    CreateFunctionType.loop d n l = l ++ List.replicate n d := by
  induction n generalizing l with
  | zero => simp [CreateFunctionType.loop]
  | succ n ih =>
    simp [CreateFunctionType.loop, ih, List.replicate_succ]

theorem getDoubleTy_cached (s : St) : (getDoubleTy s).2.DblTy = some (getDoubleTy s).1 := by
  unfold getDoubleTy
  cases h : s.DblTy <;> simp [h]

theorem getDoubleTy_of_cached (s : St) (t : DIType) (h : s.DblTy = some t) :
    getDoubleTy s = (t, s) := by
  unfold getDoubleTy
  simp [h]

theorem getDoubleTy_again (s : St) (k : Nat) :
    getDoubleTy ((fun st => (getDoubleTy st).2)^[k] (getDoubleTy s).2)
      = ((getDoubleTy s).1, (getDoubleTy s).2) := by
  induction k with
  | zero => exact getDoubleTy_of_cached _ _ (getDoubleTy_cached s)
  | succ k ih =>
    rw [Function.iterate_succ_apply', ih]
    exact getDoubleTy_of_cached _ _ (getDoubleTy_cached s)

/-- C8: in a state whose type cache is empty or holds the `double` type,
`CreateFunctionType N` returns a subroutine type with exactly `N + 1` elements,
the result type followed by `N` argument types, every one of them the cached
type object, which is `double`, 64 bits, float encoding; and every call of
`getDoubleTy` after the first, in any state whose cache is the one the first
call left, returns the object of the first and leaves the state alone. -/
theorem CreateFunctionType_elements (N : Nat) (s : St)
    (hcache : ∀ t, s.DblTy = some t →
      t.Name = "double" ∧ t.SizeInBits = 64 ∧ t.Encoding = DW_ATE_float) :
    (CreateFunctionType N s).1.Elts.length = N + 1
    ∧ (CreateFunctionType N s).1.Elts
        = (getDoubleTy s).1 :: List.replicate N (getDoubleTy s).1
    ∧ (∀ t ∈ (CreateFunctionType N s).1.Elts, t = (getDoubleTy s).1)
    ∧ (CreateFunctionType N s).2.DblTy = some (getDoubleTy s).1
    ∧ ((getDoubleTy s).1.Name = "double" ∧ (getDoubleTy s).1.SizeInBits = 64
        ∧ (getDoubleTy s).1.Encoding = DW_ATE_float)
    ∧ (∀ k : Nat, getDoubleTy ((fun st => (getDoubleTy st).2)^[k] (getDoubleTy s).2)
        = ((getDoubleTy s).1, (getDoubleTy s).2))
    ∧ (∀ s' : St, s'.DblTy = (getDoubleTy s).2.DblTy →
        getDoubleTy s' = ((getDoubleTy s).1, s')) := by
  have helts : (CreateFunctionType N s).1.Elts
      = (getDoubleTy s).1 :: List.replicate N (getDoubleTy s).1 := by
    simp [CreateFunctionType, CreateFunctionType.loop_eq]
  refine ⟨by simp [helts], helts, ?_, ?_, ?_, getDoubleTy_again s, fun s' hs' =>
    getDoubleTy_of_cached s' _ (hs'.trans (getDoubleTy_cached s))⟩
  · intro t ht
    rw [helts] at ht
    rcases List.mem_cons.mp ht with h | h
    · exact h
    · exact (List.mem_replicate.mp h).2
  · simpa [CreateFunctionType] using getDoubleTy_cached s
  · cases h : s.DblTy with
    | none => simp [getDoubleTy, h, DW_ATE_float]
    | some t => simpa [getDoubleTy, h] using hcache t h

/-- Witness of C8: three arguments, in the state in which `MainLoop` starts. -/
theorem CreateFunctionType_elements_witness :
    (CreateFunctionType 3 Sample.booted).1.Elts.length = 3 + 1
    ∧ (CreateFunctionType 3 Sample.booted).1.Elts
        = (getDoubleTy Sample.booted).1 :: List.replicate 3 (getDoubleTy Sample.booted).1
    ∧ (∀ t ∈ (CreateFunctionType 3 Sample.booted).1.Elts, t = (getDoubleTy Sample.booted).1)
    ∧ (CreateFunctionType 3 Sample.booted).2.DblTy = some (getDoubleTy Sample.booted).1
    ∧ ((getDoubleTy Sample.booted).1.Name = "double"
        ∧ (getDoubleTy Sample.booted).1.SizeInBits = 64
        ∧ (getDoubleTy Sample.booted).1.Encoding = DW_ATE_float)
    ∧ (∀ k : Nat,
        getDoubleTy ((fun st => (getDoubleTy st).2)^[k] (getDoubleTy Sample.booted).2)
          = ((getDoubleTy Sample.booted).1, (getDoubleTy Sample.booted).2))
    ∧ (∀ s' : St, s'.DblTy = (getDoubleTy Sample.booted).2.DblTy →
        getDoubleTy s' = ((getDoubleTy Sample.booted).1, s')) :=
  CreateFunctionType_elements 3 Sample.booted (fun t h => by
    have h0 : Sample.booted.DblTy = none := by decide
    rw [h0] at h
    cases h)

/-! ### `std::map` -/

theorem StdMap.find_assign_self {V : Type} (m : StdMap V) (k : String) (x : V) :
    (m.assign k x).find k = some x := by
  induction m with
  | nil => simp [StdMap.assign, StdMap.find]
  | cons e rest ih =>
    obtain ⟨k', x'⟩ := e
    by_cases h : k' = k
    · simp [StdMap.assign, StdMap.find, h]
    · simp [StdMap.assign, StdMap.find, h, ih]

theorem StdMap.find_assign_other {V : Type} (m : StdMap V) (k k' : String) (x : V)
    (h : k' ≠ k) : (m.assign k x).find k' = m.find k' := by
  induction m with
  | nil => simp [StdMap.assign, StdMap.find, Ne.symm h]
  | cons e rest ih =>
    obtain ⟨k0, x0⟩ := e
    by_cases h0 : k0 = k
    · subst h0
      simp [StdMap.assign, StdMap.find, Ne.symm h]
    · by_cases h1 : k0 = k'
      · subst h1
        simp [StdMap.assign, StdMap.find, h0]
      · simp [StdMap.assign, StdMap.find, h0, h1, ih]

theorem FunctionAST.bindArg_eq (F : Nat) (SP : DISubprogram) (U : DIFile) (L pos : Nat)
    (a : String) (idx : Nat) (s : St) (d : DIType) (BB EB : Nat)
    (hd : s.DblTy = some d) (hbb : s.builder.InsertBlock = some BB)
    (heb : s.module.getEntryBlock F = some EB) :
    FunctionAST.bindArg F SP U L pos a idx s =
      { s with
        module := { s.module with Insts :=
          ⟨EB, Opcode.Alloca s.nextId a, none⟩ :: s.module.Insts ++
            [⟨BB, Opcode.DbgDeclare (Value.Alloca s.nextId)
                ⟨SP, a, (idx + 1) % 2 ^ 32 % 2 ^ 16, U, L, d, true⟩
                (DILocation.get L 0 (DIScope.Subprogram SP)),
                some (DILocation.get L 0 (DIScope.Subprogram SP))⟩,
             ⟨BB, Opcode.Store (Value.Argument F pos) (Value.Alloca s.nextId),
                s.builder.CurDbgLoc⟩] }
        nextId := s.nextId + 1
        DBuilder := { s.DBuilder with PreservedVariables :=
          s.DBuilder.PreservedVariables
            ++ [⟨SP, a, (idx + 1) % 2 ^ 32 % 2 ^ 16, U, L, d, true⟩] }
        named_values := s.named_values.assign a (Value.Alloca s.nextId) } := by
  simp [FunctionAST.bindArg, CreateEntryBlockAlloca, getDoubleTy, createParameterVariable,
    insertDeclare, IRBuilder_Insert, hd, hbb, heb]

theorem FunctionAST.bindArgs_eq (F : Nat) (SP : DISubprogram) (U : DIFile) (L : Nat)
    (d : DIType) (BB EB n0 : Nat) (as : List String) (c : Nat) (s : St)
    (hd : s.DblTy = some d) (hbb : s.builder.InsertBlock = some BB)
    (heb : s.module.getEntryBlock F = some EB) (hn : s.nextId = n0 + c) :
    FunctionAST.bindArgs F SP U L as c (c % 2 ^ 32) s =
      { s with
        module := { s.module with Insts :=
          ((as.enumFrom c).map (fun p =>
              (⟨EB, Opcode.Alloca (n0 + p.1) p.2, none⟩ : Instruction))).reverse
            ++ s.module.Insts
            ++ ((as.enumFrom c).map (fun p =>
              [(⟨BB, Opcode.DbgDeclare (Value.Alloca (n0 + p.1))
                  ⟨SP, p.2, (p.1 + 1) % 2 ^ 32 % 2 ^ 16, U, L, d, true⟩
                  (DILocation.get L 0 (DIScope.Subprogram SP)),
                  some (DILocation.get L 0 (DIScope.Subprogram SP))⟩ : Instruction),
               ⟨BB, Opcode.Store (Value.Argument F p.1) (Value.Alloca (n0 + p.1)),
                  s.builder.CurDbgLoc⟩])).flatten }
        nextId := n0 + c + as.length
        DBuilder := { s.DBuilder with PreservedVariables :=
          s.DBuilder.PreservedVariables ++ (as.enumFrom c).map (fun p =>
            (⟨SP, p.2, (p.1 + 1) % 2 ^ 32 % 2 ^ 16, U, L, d, true⟩ : DILocalVariable)) }
        named_values := (as.enumFrom c).foldl
          (fun m p => m.assign p.2 (Value.Alloca (n0 + p.1))) s.named_values } := by
  induction as generalizing c s with
  | nil =>
    simp [FunctionAST.bindArgs, ← hn]
  | cons a rest ih =>
    have hmod : (c % 2 ^ 32 + 1) % 2 ^ 32 = (c + 1) % 2 ^ 32 := by omega
    have key := FunctionAST.bindArg_eq F SP U L c a (c % 2 ^ 32) s d BB EB hd hbb heb
    have h1 : (FunctionAST.bindArg F SP U L c a (c % 2 ^ 32) s).DblTy = some d := by
      rw [key]; exact hd
    have h2 : (FunctionAST.bindArg F SP U L c a (c % 2 ^ 32) s).builder.InsertBlock
        = some BB := by
      rw [key]; exact hbb
    have h3 : (FunctionAST.bindArg F SP U L c a (c % 2 ^ 32) s).module.getEntryBlock F
        = some EB := by
      rw [key]; exact heb
    have h4 : (FunctionAST.bindArg F SP U L c a (c % 2 ^ 32) s).nextId = n0 + (c + 1) := by
      rw [key]; simp only [hn]; omega
    rw [FunctionAST.bindArgs, hmod, ih (c + 1) _ h1 h2 h3 h4, key]
    simp [hn, hmod, Nat.add_assoc, Nat.add_comm 1]

/-! ### The states between the lookup and the body -/

theorem Module.args_setSubprogram (F F' : Nat) (SP : DISubprogram) (s : St) :
    (setSubprogram F SP s).module.args F' = s.module.args F' := by
  have hcomp : ((fun f : Function => f.id == F') ∘
      fun f : Function => if f.id = F then { f with Subprogram := some SP } else f)
      = fun f : Function => f.id == F' := by
    funext f
    by_cases hF : f.id = F <;> simp [hF]
  simp only [setSubprogram, Module.args, Module.findFunction, List.find?_map, hcomp]
  cases List.find? (fun f : Function => f.id == F') s.module.Functions with
  | none => rfl
  | some f => by_cases hF : f.id = F <;> simp [hF]

theorem FunctionAST.entry_getEntryBlock (F : Nat) (s : St) :
    ∃ EB, (FunctionAST.entry F s).module.getEntryBlock F = some EB := by
  simp only [FunctionAST.entry, SetInsertPoint, BasicBlock_Create, Module.getEntryBlock]
  cases h : List.find? (fun b => b.Parent == F) (s.module.Blocks ++ [⟨s.nextId, "entry", F⟩])
    with
  | none =>
    rw [List.find?_eq_none] at h
    have := h ⟨s.nextId, "entry", F⟩ (by simp)
    simp at this
  | some b => exact ⟨b.id, rfl⟩

theorem FunctionAST.scope_fields (P : PrototypeAST) (F : Nat) (s : St) :
    (FunctionAST.scope P F s).LexicalBlocks
        = s.LexicalBlocks ++ [DIScope.Subprogram (FunctionAST.subprogram P F s).1]
    ∧ (FunctionAST.scope P F s).function_protos = s.function_protos
    ∧ (FunctionAST.scope P F s).DblTy = some (getDoubleTy s).1
    ∧ (FunctionAST.scope P F s).builder.InsertBlock = s.builder.InsertBlock
    ∧ (FunctionAST.scope P F s).builder.CurDbgLoc = none
    ∧ (FunctionAST.scope P F s).module.Blocks = s.module.Blocks
    ∧ (FunctionAST.scope P F s).module.Insts = s.module.Insts
    ∧ (FunctionAST.scope P F s).DBuilder.PreservedVariables = s.DBuilder.PreservedVariables
    ∧ (FunctionAST.scope P F s).TheCU = s.TheCU
    ∧ (∀ F', (FunctionAST.scope P F s).module.args F' = s.module.args F') := by
  refine ⟨?_, ?_, ?_, ?_, ?_, ?_, ?_, ?_, ?_, ?_⟩
  all_goals first
    | (intro F'
       have h := Module.args_setSubprogram F F' (FunctionAST.subprogram P F s).1
         (FunctionAST.subprogram P F s).2
       have h2 : (FunctionAST.subprogram P F s).2.module = s.module := by
         cases hd : s.DblTy <;>
           simp [FunctionAST.subprogram, createFunction, CreateFunctionType, getDoubleTy, hd]
       rw [h2] at h
       exact h)
    | (cases hd : s.DblTy <;>
        simp [FunctionAST.scope, FunctionAST.subprogram, createFunction, CreateFunctionType,
          getDoubleTy, setSubprogram, emitLocation, SetCurrentDebugLocation, hd])

theorem FunctionAST.prologue_eq (P : PrototypeAST) (Body : ExprAST) (F : Nat) (s : St) :
    FunctionAST.prologue P Body F s
      = emitLocation (some Body)
          (FunctionAST.bindArgs F (FunctionAST.subprogram P F (FunctionAST.entry F s)).1
            (FunctionAST.Unit (FunctionAST.entry F s)) P.Line
            ((FunctionAST.paramsState P F s).module.args F) 0 0
            (FunctionAST.paramsState P F s)) := rfl

theorem FunctionAST.prologue_explicit (P : PrototypeAST) (Body : ExprAST) (F : Nat) (s : St)
    (EB : Nat) (heb : (FunctionAST.entry F s).module.getEntryBlock F = some EB) :
    FunctionAST.prologue P Body F s
      = emitLocation (some Body)
          { FunctionAST.paramsState P F s with
            module := { (FunctionAST.paramsState P F s).module with Insts :=
              (((s.module.args F).enum).map (fun p =>
                  (⟨EB, Opcode.Alloca ((FunctionAST.paramsState P F s).nextId + p.1) p.2, none⟩
                    : Instruction))).reverse
                ++ s.module.Insts
                ++ (((s.module.args F).enum).map (fun p =>
                  [(⟨s.nextId, Opcode.DbgDeclare
                        (Value.Alloca ((FunctionAST.paramsState P F s).nextId + p.1))
                        ⟨(FunctionAST.subprogram P F (FunctionAST.entry F s)).1, p.2,
                          (p.1 + 1) % 2 ^ 32 % 2 ^ 16, FunctionAST.Unit s, P.Line,
                          (getDoubleTy (FunctionAST.entry F s)).1, true⟩
                        (DILocation.get P.Line 0 (DIScope.Subprogram
                          (FunctionAST.subprogram P F (FunctionAST.entry F s)).1)),
                      some (DILocation.get P.Line 0 (DIScope.Subprogram
                          (FunctionAST.subprogram P F (FunctionAST.entry F s)).1))⟩
                      : Instruction),
                   ⟨s.nextId, Opcode.Store (Value.Argument F p.1)
                      (Value.Alloca ((FunctionAST.paramsState P F s).nextId + p.1)), none⟩])).flatten }
            nextId := (FunctionAST.paramsState P F s).nextId + (s.module.args F).length
            DBuilder := { (FunctionAST.paramsState P F s).DBuilder with PreservedVariables :=
              s.DBuilder.PreservedVariables ++ ((s.module.args F).enum).map (fun p =>
                (⟨(FunctionAST.subprogram P F (FunctionAST.entry F s)).1, p.2,
                  (p.1 + 1) % 2 ^ 32 % 2 ^ 16, FunctionAST.Unit s, P.Line,
                  (getDoubleTy (FunctionAST.entry F s)).1, true⟩ : DILocalVariable)) }
            named_values := ((s.module.args F).enum).foldl
              (fun m p => m.assign p.2
                (Value.Alloca ((FunctionAST.paramsState P F s).nextId + p.1))) [] } := by
  obtain ⟨h1, h2, h3, h4, h5, h6, h7, h8, h9, h10⟩ :=
    FunctionAST.scope_fields P F (FunctionAST.entry F s)
  have hargs : (FunctionAST.paramsState P F s).module.args F = s.module.args F := by
    have : (FunctionAST.paramsState P F s).module
        = (FunctionAST.scope P F (FunctionAST.entry F s)).module := rfl
    rw [this, h10 F]
    rfl
  have hd : (FunctionAST.paramsState P F s).DblTy
      = some (getDoubleTy (FunctionAST.entry F s)).1 := h3
  have hbb : (FunctionAST.paramsState P F s).builder.InsertBlock = some s.nextId := by
    have : (FunctionAST.paramsState P F s).builder
        = (FunctionAST.scope P F (FunctionAST.entry F s)).builder := rfl
    rw [this, h4]
    rfl
  have hcur : (FunctionAST.paramsState P F s).builder.CurDbgLoc = none := h5
  have hEB : (FunctionAST.paramsState P F s).module.getEntryBlock F = some EB := by
    have : (FunctionAST.paramsState P F s).module.getEntryBlock F
        = (FunctionAST.entry F s).module.getEntryBlock F := by
      simp only [Module.getEntryBlock]
      have : (FunctionAST.paramsState P F s).module.Blocks
          = (FunctionAST.entry F s).module.Blocks := h6
      rw [this]
    rw [this, heb]
  have hinsts : (FunctionAST.paramsState P F s).module.Insts = s.module.Insts := by
    have : (FunctionAST.paramsState P F s).module.Insts
        = (FunctionAST.entry F s).module.Insts := h7
    rw [this]
    rfl
  have hpv : (FunctionAST.paramsState P F s).DBuilder.PreservedVariables
      = s.DBuilder.PreservedVariables := by
    have : (FunctionAST.paramsState P F s).DBuilder.PreservedVariables
        = (FunctionAST.entry F s).DBuilder.PreservedVariables := h8
    rw [this]
    rfl
  have hnv : (FunctionAST.paramsState P F s).named_values = [] := rfl
  have hunit : FunctionAST.Unit (FunctionAST.entry F s) = FunctionAST.Unit s := rfl
  have key := FunctionAST.bindArgs_eq F (FunctionAST.subprogram P F (FunctionAST.entry F s)).1
    (FunctionAST.Unit (FunctionAST.entry F s)) P.Line (getDoubleTy (FunctionAST.entry F s)).1
    s.nextId EB (FunctionAST.paramsState P F s).nextId (s.module.args F) 0
    (FunctionAST.paramsState P F s) hd hbb hEB rfl
  rw [FunctionAST.prologue_eq, hargs]
  rw [Nat.zero_mod] at key
  rw [key, hcur, hinsts, hpv, hnv, hunit]
  rfl

theorem FunctionAST.prologue_frame (P : PrototypeAST) (Body : ExprAST) (F : Nat) (s : St) :
    (FunctionAST.prologue P Body F s).LexicalBlocks
        = s.LexicalBlocks
            ++ [DIScope.Subprogram (FunctionAST.subprogram P F (FunctionAST.entry F s)).1]
    ∧ (FunctionAST.prologue P Body F s).function_protos = s.function_protos := by
  obtain ⟨EB, heb⟩ := FunctionAST.entry_getEntryBlock F s
  obtain ⟨h1, h2, -⟩ := FunctionAST.scope_fields P F (FunctionAST.entry F s)
  rw [FunctionAST.prologue_explicit P Body F s EB heb]
  constructor
  · rw [emitLocation_LexicalBlocks]
    exact h1
  · exact h2

theorem IRBuilder_Insert_frame (op : Opcode) (s : St) :
    (IRBuilder_Insert op s).LexicalBlocks = s.LexicalBlocks
    ∧ (IRBuilder_Insert op s).function_protos = s.function_protos
    ∧ (IRBuilder_Insert op s).named_values = s.named_values
    ∧ (IRBuilder_Insert op s).builder = s.builder
    ∧ (IRBuilder_Insert op s).module.Functions = s.module.Functions
    ∧ (IRBuilder_Insert op s).module.Blocks = s.module.Blocks
    ∧ (IRBuilder_Insert op s).result_val = s.result_val := by
  unfold IRBuilder_Insert
  cases s.builder.InsertBlock <;> simp

theorem FunctionAST.finish_frame (v : Env) (F : Nat) (s : St) :
    (FunctionAST.finish v F s).LexicalBlocks = s.LexicalBlocks.dropLast
    ∧ (FunctionAST.finish v F s).function_protos = s.function_protos
    ∧ (FunctionAST.finish v F s).named_values = s.named_values := by
  obtain ⟨h1, h2, h3, -⟩ := IRBuilder_Insert_frame
    (Opcode.Ret (s.result_val.getD (Value.Other 0))) s
  unfold FunctionAST.finish
  cases hr : s.result_val with
  | none => simp [eraseFromParent]
  | some RetVal =>
    rw [hr] at h1 h2 h3
    simpa using ⟨congrArg List.dropLast h1, h2, h3⟩

theorem visit_FunctionAST_eq (v : Env) (P : PrototypeAST) (Body : ExprAST) (s : St) :
    visit_FunctionAST v ⟨some P, Body⟩ s =
      match (FunctionAST.lookup v P s).result_func with
      | none => some (⟨none, Body⟩, { FunctionAST.lookup v P s with result_func := none })
      | some F => some (⟨none, Body⟩, FunctionAST.finish v F (FunctionAST.body v P Body F s)) :=
  rfl

/-! ### The sample base class -/

theorem Env.sample_getFunction_frame (b : Bool) (n : String) (s : St) :
    ((Env.sample b).getFunction n s).LexicalBlocks = s.LexicalBlocks
    ∧ ((Env.sample b).getFunction n s).function_protos = s.function_protos := by
  simp only [Env.sample, ASTToObjectVisitor.getFunction]
  cases s.module.getFunction n with
  | some F => exact ⟨rfl, rfl⟩
  | none =>
    cases s.function_protos.find n with
    | some P => exact ⟨rfl, rfl⟩
    | none => exact ⟨rfl, rfl⟩

theorem Env.sample_accept_frame (b : Bool) (e : ExprAST) (s : St) :
    (accept (Env.sample b) e s).LexicalBlocks = s.LexicalBlocks
    ∧ (accept (Env.sample b) e s).function_protos = s.function_protos
    ∧ (accept (Env.sample b) e s).module = s.module := by
  unfold accept
  cases e.kind <;> refine ⟨?_, ?_, ?_⟩ <;> simp only [] <;> rfl

/-! ### The debug scope stack -/

/-- C1: when the lookup and the dispatch of a body leave the scope stack as they
found it, `visit(FunctionAST*)` returns with the scope stack it was called with:
a failed lookup pushes nothing, and after a successful lookup the subprogram of
the function is on top of the stack when the body is dispatched and is popped
whether or not the body produced a value.  Hence compiling any list of
definitions from an empty stack ends with an empty stack. -/
theorem visit_FunctionAST_scope_stack_balanced (v : Env)
    (hlookup : ∀ n s, (v.getFunction n s).LexicalBlocks = s.LexicalBlocks)
    (hbody : ∀ e s, (accept v e s).LexicalBlocks = s.LexicalBlocks) :
    (∀ (P : PrototypeAST) (Body : ExprAST) (s : St),
      ∃ r, visit_FunctionAST v ⟨some P, Body⟩ s = some r
        ∧ r.2.LexicalBlocks = s.LexicalBlocks)
    ∧ (∀ (P : PrototypeAST) (Body : ExprAST) (F : Nat) (s : St),
      ∃ SP, (FunctionAST.prologue P Body F (FunctionAST.lookup v P s)).LexicalBlocks
          = s.LexicalBlocks ++ [DIScope.Subprogram SP]
        ∧ (FunctionAST.finish v F (FunctionAST.body v P Body F s)).LexicalBlocks
          = s.LexicalBlocks)
    ∧ (∀ (defs : List (PrototypeAST × ExprAST)) (s : St),
      ∃ s', compileDefinitions v (defs.map (fun d => ⟨some d.1, d.2⟩))
            { s with LexicalBlocks := [] } = some s'
        ∧ s'.LexicalBlocks = []) := by
  have hl : ∀ P s, (FunctionAST.lookup v P s).LexicalBlocks = s.LexicalBlocks := by
    intro P s
    simp only [FunctionAST.lookup, hlookup]
  have hpush : ∀ (P : PrototypeAST) (Body : ExprAST) (F : Nat) (s : St),
      (FunctionAST.prologue P Body F (FunctionAST.lookup v P s)).LexicalBlocks
        = s.LexicalBlocks ++ [DIScope.Subprogram
            (FunctionAST.subprogram P F (FunctionAST.entry F (FunctionAST.lookup v P s))).1] := by
    intro P Body F s
    rw [(FunctionAST.prologue_frame P Body F _).1, hl]
  have hpop : ∀ (P : PrototypeAST) (Body : ExprAST) (F : Nat) (s : St),
      (FunctionAST.finish v F (FunctionAST.body v P Body F s)).LexicalBlocks
        = s.LexicalBlocks := by
    intro P Body F s
    rw [(FunctionAST.finish_frame v F _).1, FunctionAST.body, hbody, hpush]
    simp
  have hone : ∀ (P : PrototypeAST) (Body : ExprAST) (s : St),
      ∃ r, visit_FunctionAST v ⟨some P, Body⟩ s = some r
        ∧ r.2.LexicalBlocks = s.LexicalBlocks := by
    intro P Body s
    rw [visit_FunctionAST_eq]
    cases h : (FunctionAST.lookup v P s).result_func with
    | none => exact ⟨_, rfl, hl P s⟩
    | some F => exact ⟨_, rfl, hpop P Body F s⟩
  refine ⟨hone, fun P Body F s => ⟨_, hpush P Body F s, hpop P Body F s⟩, ?_⟩
  intro defs
  induction defs with
  | nil => intro s; exact ⟨_, rfl, rfl⟩
  | cons d rest ih =>
    intro s
    obtain ⟨r, hr, hstack⟩ := hone d.1 d.2 { s with LexicalBlocks := [] }
    obtain ⟨s', hs', hempty⟩ := ih r.2
    have hstack2 : r.2.LexicalBlocks = [] := hstack
    have hr2 : ({ r.2 with LexicalBlocks := [] } : St) = r.2 := by
      rw [← hstack2]
    rw [hr2] at hs'
    refine ⟨s', ?_, hempty⟩
    simp only [List.map_cons, compileDefinitions, hr]
    exact hs'

/-- Witness of C1: `function f(x, y): 1`, `function g(a): b` (the body fails) and
again `function f(x, y): 1`, compiled in the state in which `MainLoop` starts. -/
theorem visit_FunctionAST_scope_stack_balanced_witness :
    ∃ s', compileDefinitions (Env.sample false)
          ([((⟨"f", ["x", "y"], 1⟩ : PrototypeAST), Sample.literal),
            (⟨"g", ["a"], 2⟩, Sample.variable "b"),
            (⟨"f", ["x", "y"], 4⟩, Sample.literal)].map (fun d => ⟨some d.1, d.2⟩))
          { Sample.booted with LexicalBlocks := [] } = some s'
      ∧ s'.LexicalBlocks = [] :=
  (visit_FunctionAST_scope_stack_balanced (Env.sample false)
    (fun n s => (Env.sample_getFunction_frame false n s).1)
    (fun e s => (Env.sample_accept_frame false e s).1)).2.2 _ Sample.booted

/-! ### The function registry -/

/-- C7: when the lookup and the dispatch of a body leave `function_protos` as
they found it, after `visit(FunctionAST*)` the registry is the one before the
call with the prototype of the definition assigned under its name: that name
maps to this prototype, every other name maps to what it mapped to, whatever
the outcome (lookup failure, finalized, discarded); and the node no longer
holds a prototype. -/
theorem visit_FunctionAST_registers_prototype (v : Env)
    (hlookup : ∀ n s, (v.getFunction n s).function_protos = s.function_protos)
    (hbody : ∀ e s, (accept v e s).function_protos = s.function_protos)
    (P : PrototypeAST) (Body : ExprAST) (s : St) :
    ∃ r, visit_FunctionAST v ⟨some P, Body⟩ s = some r
      ∧ r.2.function_protos = s.function_protos.assign P.Name P
      ∧ r.2.function_protos.find P.Name = some P
      ∧ (∀ k, k ≠ P.Name → r.2.function_protos.find k = s.function_protos.find k)
      ∧ r.1.Proto = none := by
  have hl : (FunctionAST.lookup v P s).function_protos = s.function_protos.assign P.Name P := by
    simp only [FunctionAST.lookup, hlookup]
  have hfinal : ∃ r, visit_FunctionAST v ⟨some P, Body⟩ s = some r
      ∧ r.2.function_protos = s.function_protos.assign P.Name P ∧ r.1.Proto = none := by
    rw [visit_FunctionAST_eq]
    cases h : (FunctionAST.lookup v P s).result_func with
    | none => exact ⟨_, rfl, hl, rfl⟩
    | some F =>
      refine ⟨_, rfl, ?_, rfl⟩
      rw [(FunctionAST.finish_frame v F _).2.1, FunctionAST.body, hbody,
        (FunctionAST.prologue_frame P Body F _).2, hl]
  obtain ⟨r, hr, hreg, hnode⟩ := hfinal
  refine ⟨r, hr, hreg, ?_, ?_, hnode⟩
  · rw [hreg, StdMap.find_assign_self]
  · intro k hk
    rw [hreg, StdMap.find_assign_other _ _ _ _ hk]

/-- Witness of C7: `function f(a): b`, whose body fails, compiled when `f` is
registered and finalized with two parameters. -/
theorem visit_FunctionAST_registers_prototype_witness :
    ∃ r, visit_FunctionAST (Env.sample false) ⟨some ⟨"f", ["a"], 7⟩, Sample.variable "b"⟩
          Sample.withF = some r
      ∧ r.2.function_protos = Sample.withF.function_protos.assign "f" ⟨"f", ["a"], 7⟩
      ∧ r.2.function_protos.find "f" = some ⟨"f", ["a"], 7⟩
      ∧ (∀ k, k ≠ "f" → r.2.function_protos.find k = Sample.withF.function_protos.find k)
      ∧ r.1.Proto = none :=
  visit_FunctionAST_registers_prototype (Env.sample false)
    (fun n s => (Env.sample_getFunction_frame false n s).2)
    (fun e s => (Env.sample_accept_frame false e s).2.1)
    ⟨"f", ["a"], 7⟩ (Sample.variable "b") Sample.withF

/-! ### The outcome of a definition -/

/-- C2: when the lookup returned the function object `F` and the dispatch of the
body left a null value, `visit(FunctionAST*)` returns with a null function
result and a module that holds no function object `F`, no block of `F` (so no
entry block) and no instruction that was in a block of `F` (so none of the
parameter slots). -/
theorem visit_FunctionAST_discards_failed_body (v : Env) (P : PrototypeAST) (Body : ExprAST)
    (s : St) (F : Nat)
    (hfound : (FunctionAST.lookup v P s).result_func = some F)
    (hnull : (FunctionAST.body v P Body F s).result_val = none) :
    ∃ r, visit_FunctionAST v ⟨some P, Body⟩ s = some r
      ∧ r.2.result_func = none
      ∧ r.2.module.findFunction F = none
      ∧ (∀ f ∈ r.2.module.Functions, f.id ≠ F)
      ∧ (∀ b ∈ r.2.module.Blocks, b.Parent ≠ F)
      ∧ r.2.module.getEntryBlock F = none
      ∧ (∀ i ∈ r.2.module.Insts, ∀ b ∈ (FunctionAST.body v P Body F s).module.Blocks,
          b.id = i.Parent → b.Parent ≠ F) := by
  have hfun : ∀ f ∈ (FunctionAST.finish v F (FunctionAST.body v P Body F s)).module.Functions,
      f.id ≠ F := by
    intro f hf
    simp only [FunctionAST.finish, hnull, eraseFromParent, List.mem_filter] at hf
    simpa using hf.2
  have hblk : ∀ b ∈ (FunctionAST.finish v F (FunctionAST.body v P Body F s)).module.Blocks,
      b.Parent ≠ F := by
    intro b hb
    simp only [FunctionAST.finish, hnull, eraseFromParent, List.mem_filter] at hb
    simpa using hb.2
  rw [visit_FunctionAST_eq, hfound]
  refine ⟨_, rfl, ?_, ?_, hfun, hblk, ?_, ?_⟩
  · simp [FunctionAST.finish, hnull]
  · simp only [Module.findFunction, List.find?_eq_none]
    intro f hf
    simpa using hfun f hf
  · simp only [Module.getEntryBlock, Option.map_eq_none', List.find?_eq_none]
    intro b hb
    simpa using hblk b hb
  · intro i hi b hb hid
    simp only [FunctionAST.finish, hnull, eraseFromParent, List.mem_filter] at hi
    have h2 := hi.2
    simp only [Bool.not_eq_true', List.any_eq_false, Bool.and_eq_true, beq_iff_eq, not_and] at h2
    exact h2 b hb hid

/-- Witness of C2: `function g(a): b`, whose body names an unbound variable,
compiled in the state in which `MainLoop` starts; the function object is 3. -/
theorem visit_FunctionAST_discards_failed_body_witness :
    ∃ r, visit_FunctionAST (Env.sample false) ⟨some ⟨"g", ["a"], 2⟩, Sample.variable "b"⟩
          Sample.booted = some r
      ∧ r.2.result_func = none
      ∧ r.2.module.findFunction 3 = none
      ∧ (∀ f ∈ r.2.module.Functions, f.id ≠ 3)
      ∧ (∀ b ∈ r.2.module.Blocks, b.Parent ≠ 3)
      ∧ r.2.module.getEntryBlock 3 = none
      ∧ (∀ i ∈ r.2.module.Insts,
          ∀ b ∈ (FunctionAST.body (Env.sample false) ⟨"g", ["a"], 2⟩ (Sample.variable "b") 3
            Sample.booted).module.Blocks, b.id = i.Parent → b.Parent ≠ 3) :=
  visit_FunctionAST_discards_failed_body (Env.sample false) ⟨"g", ["a"], 2⟩
    (Sample.variable "b") Sample.booted 3 (by decide) (by decide)

/-- C3: `visit(FunctionAST*)` returns; its function result is non-null exactly
when the lookup returned a function object and the dispatch of the body left a
non-null value.  In that case the result is the looked-up object, the functions
and blocks of the module are those the body left (nothing is removed, so the
object is in the module if it was when the body returned), the builder is where
the body left it and the instruction list is the one the body left followed by
one `ret` of the value of the body, placed in the insertion block.  When the
lookup fails the result is null and the module is the one the lookup left (no
entry block). -/
theorem visit_FunctionAST_result (v : Env) (P : PrototypeAST) (Body : ExprAST) (s : St) :
    ∃ r, visit_FunctionAST v ⟨some P, Body⟩ s = some r
      ∧ (r.2.result_func ≠ none ↔
          ∃ F, (FunctionAST.lookup v P s).result_func = some F
            ∧ (FunctionAST.body v P Body F s).result_val ≠ none)
      ∧ (∀ F RetVal, (FunctionAST.lookup v P s).result_func = some F →
          (FunctionAST.body v P Body F s).result_val = some RetVal →
          r.2.result_func = some F
          ∧ r.2.module.Functions = (FunctionAST.body v P Body F s).module.Functions
          ∧ r.2.module.findFunction F = (FunctionAST.body v P Body F s).module.findFunction F
          ∧ r.2.module.Blocks = (FunctionAST.body v P Body F s).module.Blocks
          ∧ r.2.builder = (FunctionAST.body v P Body F s).builder
          ∧ (∀ BB, (FunctionAST.body v P Body F s).builder.InsertBlock = some BB →
              r.2.module.Insts = (FunctionAST.body v P Body F s).module.Insts
                ++ [⟨BB, Opcode.Ret RetVal, (FunctionAST.body v P Body F s).builder.CurDbgLoc⟩]))
      ∧ ((FunctionAST.lookup v P s).result_func = none →
          r.2.result_func = none ∧ r.2.module = (FunctionAST.lookup v P s).module
          ∧ r.2.module.Blocks = (FunctionAST.lookup v P s).module.Blocks) := by
  rw [visit_FunctionAST_eq]
  cases hl : (FunctionAST.lookup v P s).result_func with
  | none =>
    refine ⟨_, rfl, ?_, ?_, ?_⟩
    · simp
    · intro F RetVal hF
      cases hF
    · intro _
      exact ⟨rfl, rfl, rfl⟩
  | some F =>
    refine ⟨_, rfl, ?_, ?_, ?_⟩
    · cases hb : (FunctionAST.body v P Body F s).result_val with
      | none => simp [FunctionAST.finish, hb, eraseFromParent]
      | some RetVal => simp [FunctionAST.finish, hb]
    · intro F' RetVal hF hb
      cases hF
      obtain ⟨-, -, -, h4, h5, h6, -⟩ :=
        IRBuilder_Insert_frame (Opcode.Ret RetVal) (FunctionAST.body v P Body F s)
      have hfn : (FunctionAST.finish v F (FunctionAST.body v P Body F s)).module.Functions
          = (FunctionAST.body v P Body F s).module.Functions := by
        simp only [FunctionAST.finish, hb]
        exact h5
      refine ⟨?_, hfn, ?_, ?_, ?_, ?_⟩
      · simp [FunctionAST.finish, hb]
      · simp only [Module.findFunction, hfn]
      · simp only [FunctionAST.finish, hb]
        exact h6
      · simp only [FunctionAST.finish, hb]
        exact h4
      · intro BB hBB
        simp [FunctionAST.finish, hb, IRBuilder_Insert, hBB]
    · intro h
      cases h

/-- An instance of the finalized path: `function add_one(a): a` compiled in the
state in which `MainLoop` starts is finalized as function object 3, which is in
the module, and the last instruction is the `ret` of the value of the body, in
block 4. -/
theorem visit_FunctionAST_add_one :
    (visit_FunctionAST (Env.sample false) ⟨some ⟨"add_one", ["a"], 2⟩, Sample.variable "a"⟩
        Sample.booted).map (fun r =>
          (r.2.result_func, (r.2.module.findFunction 3).map (fun f => f.Name),
            r.2.builder.InsertBlock,
            r.2.module.Insts.getLast?.map (fun i => (i.Parent, i.Op))))
      = some (some 3, some "add_one", some 4, some (4, Opcode.Ret (Value.Alloca 7))) := by
  decide

/-- Witness of C3: `function add_one(a): a` compiled in the state in which
`MainLoop` starts: the lookup returns object 3, the body leaves the slot 7 as
its value and the builder in block 4. -/
theorem visit_FunctionAST_result_witness :
    ∃ r, visit_FunctionAST (Env.sample false)
          ⟨some ⟨"add_one", ["a"], 2⟩, Sample.variable "a"⟩ Sample.booted = some r
      ∧ r.2.result_func = some 3
      ∧ r.2.module.findFunction 3
          = (FunctionAST.body (Env.sample false) ⟨"add_one", ["a"], 2⟩ (Sample.variable "a") 3
              Sample.booted).module.findFunction 3
      ∧ r.2.module.Insts
          = (FunctionAST.body (Env.sample false) ⟨"add_one", ["a"], 2⟩ (Sample.variable "a") 3
              Sample.booted).module.Insts
            ++ [⟨4, Opcode.Ret (Value.Alloca 7),
                (FunctionAST.body (Env.sample false) ⟨"add_one", ["a"], 2⟩
                  (Sample.variable "a") 3 Sample.booted).builder.CurDbgLoc⟩] := by
  obtain ⟨r, hr, -, hfinal, -⟩ := visit_FunctionAST_result (Env.sample false)
    ⟨"add_one", ["a"], 2⟩ (Sample.variable "a") Sample.booted
  obtain ⟨h1, -, h3, -, -, h6⟩ := hfinal 3 (Value.Alloca 7) (by decide) (by decide)
  exact ⟨r, hr, h1, h3, h6 4 (by decide)⟩

/-! ### Verification of the finalized function -/

theorem accept_verifier_irrelevant (v : Env) (g : Nat → St → Bool) (e : ExprAST) (s : St) :
    accept { v with verifyFunction := g } e s = accept v e s := by
  unfold accept
  cases e.kind <;> rfl

theorem visit_FunctionAST_verifier_irrelevant (v : Env) (g : Nat → St → Bool)
    (expr : FunctionAST) (s : St) :
    visit_FunctionAST { v with verifyFunction := g } expr s = visit_FunctionAST v expr s := by
  unfold visit_FunctionAST
  cases expr.Proto with
  | none => rfl
  | some P =>
    simp only [accept_verifier_irrelevant]
    rfl

/-- C5, the code at the failing input: `function f(x, y): 1` is compiled a
second time, the module holding the finalized `f` (function object 3), with a
verifier that reports the function broken.  The call returns normally, the
function result is object 3, the object is in the module, and the verdict on it
in the returned state is that it is broken. -/
theorem visit_FunctionAST_keeps_broken_function :
    (visit_FunctionAST (Env.sample true) ⟨some ⟨"f", ["x", "y"], 4⟩, Sample.literal⟩
        Sample.withF).map (fun r =>
          (r.2.result_func, (r.2.module.findFunction 3).map (fun f => f.Name),
            (Env.sample true).verifyFunction 3 r.2))
      = some (some 3, some "f", true) := by
  decide

/-! ### Bootstrap -/

theorem compile_llvm_ir.bootstrap_CompileUnits (v : Env) (codegen s' : St)
    (h : compile_llvm_ir.bootstrap v codegen = some s') :
    ∃ first, s'.module.CompileUnits
        = (v.Initialize codegen).module.CompileUnits ++ [first, s'.TheCU]
      ∧ first.File.Filename = "fib.ks" ∧ s'.TheCU.File.Filename = "fib.arxks"
      ∧ s'.DBuilder.CUNode = some s'.TheCU := by
  unfold compile_llvm_ir.bootstrap Initialize at h
  cases hj : v.ArxJIT_Create with
  | none => simp [hj] at h
  | some layout =>
    simp only [hj, Option.some.injEq] at h
    subst h
    refine ⟨⟨(v.Initialize codegen).nextId, DW_LANG_C, ⟨"fib.ks", "."⟩, "Arx Compiler",
      false, "", 0⟩, ?_, rfl, ?_, ?_⟩
    all_goals
      cases hD : v.isOSDarwin <;> simp [hD, createCompileUnit, addModuleFlag]

/-- C6, the code at the failing input: `compile_llvm_ir` on a new visitor.  When
`MainLoop` starts the module has two compile-unit records, for `fib.ks` and for
`fib.arxks`; `TheCU` and the debug-info builder in use refer to the second. -/
theorem compile_llvm_ir_bootstrap_compile_units :
    (compile_llvm_ir.bootstrap (Env.sample false) St.fresh).map (fun s =>
        (s.module.CompileUnits.length,
          s.module.CompileUnits.map (fun cu => cu.File.Filename),
          s.TheCU.File.Filename, s.DBuilder.CUNode.map (fun cu => cu.File.Filename)))
      = some (2, ["fib.ks", "fib.arxks"], "fib.arxks", some "fib.arxks") := by
  decide

/-! ### Parameters: the symbol table, the slots and the debug records -/

end Arx
